import Mathlib

/-!
A verification development for the gpt-files client.  The definitions
below are a shallow embedding of the resource clients and of the
orchestration layer (clients/core.ts, clients/assistant.ts,
clients/file.ts, clients/vector_store.ts, client.ts): the remote state is
a record of the resources the client manipulates, every network mutation
is recorded as an event, and failures of individual calls are injected
through an oracle.  The remote API itself (the patch semantics of the
assistants endpoint, the cursor-pagination envelope, the fact that a
vector-store attachment record carries the attached file's id) is an
external collaborator of the repository and is modelled from the
specification's description of the external interfaces.
-/

namespace GptFiles

/-- JS truthiness of an optional string: `undefined` and the empty string
are both falsy (`if (name) { ... }` in updateAssistant and getFileName). -/
def truthyStr : Option String → Bool
| none => false
| some s => !(decide (s = ""))

/-- A remote file record (`FileResponse` in clients/file.ts): id and
filename.  The remaining fields (bytes, created_at, purpose) play no role
in any verified claim. -/
structure RFile where
  id : String
  filename : String
deriving DecidableEq

/-- A vector-store attachment record (`VectorStoreFile` in
clients/vector_store.ts).  In the remote API the record's `id` equals the
attached file's id, an identity the orchestration code relies on
(`f.id === file.id` in the uploadDir rollback). -/
structure VSFile where
  id : String
  vector_store_id : String
deriving DecidableEq

/-- The assistant record (`Assistant` in clients/assistant.ts), used both
for the remote resource and for the local object the orchestrator holds.
`code_file_ids` is `tool_resources.code_interpreter?.file_ids`, with the
absence of the `code_interpreter` entry represented as `none`.
`vector_store_ids` is `tool_resources.file_search?.vector_store_ids`;
absence of the `file_search` entry is collapsed into the empty list,
which every use site treats identically.  `hasFileSearchTool` records
whether `tools` contains a `file_search` entry. -/
structure AssistantR where
  name : String
  model : String
  description : String
  instructions : String
  hasFileSearchTool : Bool
  vector_store_ids : List String
  code_file_ids : Option (List String)
deriving DecidableEq

/-- The `UpdateAssistantArgs` record of clients/assistant.ts: every field
optional, `none` meaning the caller did not provide it. -/
structure UpdateAssistantArgs where
  name : Option String := none
  model : Option String := none
  description : Option String := none
  instructions : Option String := none
  vectorStoreId : Option String := none
  codeFileIds : Option (List String) := none
deriving DecidableEq

/-- The request body assembled by `AssistantClient.updateAssistant`:
only the fields the caller provided (and JS considers truthy) are
present.  `tr_file_search` stands for
`tool_resources.file_search.vector_store_ids` and `tr_code` for
`tool_resources.code_interpreter.file_ids`. -/
structure UpdateBody where
  name : Option String := none
  model : Option String := none
  description : Option String := none
  instructions : Option String := none
  tr_file_search : Option (List String) := none
  tr_code : Option (List String) := none
deriving DecidableEq

/-- The body construction of `AssistantClient.updateAssistant`
(clients/assistant.ts, lines 118-146): a field is included exactly when
the argument is truthy; `vectorStoreId` is wrapped as a one-element
`vector_store_ids` list, and `codeFileIds` (any array, including the
empty one, is truthy) is merged next to it rather than replacing it. -/
def buildUpdateBody (args : UpdateAssistantArgs) : UpdateBody :=
  { name := if truthyStr args.name then args.name else none,
    model := if truthyStr args.model then args.model else none,
    description := if truthyStr args.description then args.description else none,
    instructions := if truthyStr args.instructions then args.instructions else none,
    tr_file_search :=
      match args.vectorStoreId with
      | some v => if v = "" then none else some [v]
      | none => none,
    tr_code := args.codeFileIds }

/-- Modelled from the spec: the remote assistants update endpoint patches
only the fields present in the request body, and within `tool_resources`
patches only the sub-resources present, leaving the sibling sub-resource
untouched. -/
def applyUpdate (a : AssistantR) (b : UpdateBody) : AssistantR :=
  { a with
    name := b.name.getD a.name,
    model := b.model.getD a.model,
    description := b.description.getD a.description,
    instructions := b.instructions.getD a.instructions,
    vector_store_ids := b.tr_file_search.getD a.vector_store_ids,
    code_file_ids :=
      match b.tr_code with
      | some l => some l
      | none => a.code_file_ids }

/-- The `FileDestination` enum of clients/core.ts (values `file` and
`code`), reconstructed from its use sites; the snapshot of core.ts in the
repository predates its introduction. -/
inductive FileDestination where
| file
| code
deriving DecidableEq

/-- The full remote state the client manipulates: the file collection,
the vector stores (store id paired with the list of attached file ids),
and the one assistant the invocation addresses.  `nextId` and
`nextStoreId` feed the server's fresh-id assignment. -/
structure Remote where
  files : List RFile
  stores : List (String × List String)
  assistant : AssistantR
  nextId : Nat
  nextStoreId : Nat
deriving DecidableEq

/-- One network mutation issued by the client.  Read-only calls (get,
list, search) are not recorded: the claims quantify over mutations. -/
inductive Event where
| uploadFile (id name : String)
| deleteFile (id : String)
| createStore (id : String)
| attachStore (storeId fileId : String)
| detachStore (storeId fileId : String)
| postAssistant (body : UpdateBody)
deriving DecidableEq

/-- Client-visible state: the remote resources plus the trace of
mutations issued so far. -/
structure St where
  remote : Remote
  trace : List Event
deriving DecidableEq

/-- The errors the embedded operations raise: a name-collision
precondition failure, or an `ApiError` from a non-success status of the
named call. -/
inductive Err where
| nameExists (name : String)
| api (op : String)
deriving DecidableEq

/-- The failure oracle: decides, per call and argument, whether the
remote accepts the mutation.  A `false` entry makes the corresponding
client method raise `Err.api`. -/
structure Oracle where
  uploadOk : String → Bool
  deleteOk : String → Bool
  attachStoreOk : String → Bool
  detachStoreOk : String → Bool
  attachCodeOk : String → Bool
  detachCodeOk : String → Bool
  updateAssistantOk : Bool
  createStoreOk : Bool

/-- The id the server assigns to the next uploaded file. -/
def freshFileId (r : Remote) : String := "file-" ++ toString r.nextId

/-- The attachment list of a store id within a store collection. -/
def lookupStore (stores : List (String × List String)) (vStoreId : String) :
    List String :=
  ((stores.find? (fun p => decide (p.1 = vStoreId))).map Prod.snd).getD []

/-- The file ids currently attached to the given vector store. -/
def storeFiles (r : Remote) (vStoreId : String) : List String :=
  lookupStore r.stores vStoreId

/-- Remote effect of attaching a file id to a vector store. -/
def storeAttach (r : Remote) (vStoreId fid : String) : Remote :=
  { r with
    stores := r.stores.map (fun p => if p.1 = vStoreId then (p.1, p.2 ++ [fid]) else p) }

/-- Remote effect of detaching a file id from a vector store. -/
def storeDetach (r : Remote) (vStoreId fid : String) : Remote :=
  { r with
    stores := r.stores.map
      (fun p => if p.1 = vStoreId then (p.1, p.2.filter (fun x => !(decide (x = fid)))) else p) }

/-! ### Transport core (clients/core.ts) -/

/-- The uniform result shape of `ClientCore.request`
(`ApiResponse<T>` in clients/core.ts). -/
structure ApiResponse (α : Type) where
  data : Option α
  status : Nat
  statusText : Option String
  rawData : Option String
deriving DecidableEq

/-- `response.ok` of the fetch API: the status is in the 2xx range. -/
def responseOk (status : Nat) : Bool :=
  decide (200 ≤ status) && decide (status ≤ 299)

/-- The response handling of `ClientCore.request` (clients/core.ts,
lines 68-96): the body is read as text, then JSON-decoded; a decode
failure on a 2xx response is reported as a synthetic status-500 result
with a fixed status text instead of an exception.  The throwing
`JSON.parse` wrapped in try/catch is abstracted as an `Option`-valued
decoder. -/
def ClientCore.handle {α : Type} (parse : String → Option α) (status : Nat)
    (statusText : String) (raw : String) : ApiResponse α :=
  if responseOk status then
    match parse raw with
    | some d => ⟨some d, status, none, none⟩
    | none => ⟨none, 500, some "Fail on json encode even when 200", some raw⟩
  else ⟨none, status, some statusText, some raw⟩

/-! ### Assistant client (clients/assistant.ts) -/

/-- `AssistantClient.tryGetVectorStoreId`: the single vector-store id of
an assistant, or `none` when the file-search tool is disabled or no
store is configured. -/
def AssistantClient.tryGetVectorStoreId (a : AssistantR) : Option String :=
  if a.hasFileSearchTool then a.vector_store_ids.head? else none

/-- `AssistantClient.updateAssistant`: build the partial body and post
it; the response carries the patched assistant. -/
def AssistantClient.updateAssistant (o : Oracle) (args : UpdateAssistantArgs)
    (st : St) : Except Err (AssistantR × St) :=
  let body := buildUpdateBody args
  if o.updateAssistantOk then
    let a2 := applyUpdate st.remote.assistant body
    .ok (a2, ⟨{ st.remote with assistant := a2 },
              st.trace ++ [Event.postAssistant body]⟩)
  else .error (Err.api "assistants.update")

/-- `AssistantClient.attachCodeFile`: no-op without a network call when
the id is already present; otherwise push the id and post the full
replacement list.  `codes.push(fileId)` mutates the assistant object's
own `file_ids` array in place when that array exists (aliasing!), and
does so before the request is sent, so the first component returned is
the caller's view of the assistant object after the call, even when the
call fails. -/
def AssistantClient.attachCodeFile (o : Oracle) (a : AssistantR) (fid : String)
    (st : St) : AssistantR × St × Option Err :=
  let codes := a.code_file_ids.getD []
  if fid ∈ codes then (a, st, none)
  else
    let newCodes := codes ++ [fid]
    let a2 := match a.code_file_ids with
      | some _ => { a with code_file_ids := some newCodes }
      | none => a
    if o.attachCodeOk fid then
      let body : UpdateBody := { tr_code := some newCodes }
      (a2, ⟨{ st.remote with assistant := applyUpdate st.remote.assistant body },
            st.trace ++ [Event.postAssistant body]⟩, none)
    else (a2, st, some (Err.api "assistants.attachCodeFile"))

/-- `AssistantClient.detachCodeFile`: no-op without a network call when
the id is absent; otherwise post the filtered replacement list (`filter`
builds a fresh array, so unlike attach there is no in-place mutation of
the argument).  Returns the remote's response, the patched assistant. -/
def AssistantClient.detachCodeFile (o : Oracle) (a : AssistantR) (fid : String)
    (st : St) : Except Err (AssistantR × St) :=
  let codes := a.code_file_ids.getD []
  if fid ∈ codes then
    let newCodes := codes.filter (fun x => !(decide (x = fid)))
    if o.detachCodeOk fid then
      let body : UpdateBody := { tr_code := some newCodes }
      let a2 := applyUpdate st.remote.assistant body
      .ok (a2, ⟨{ st.remote with assistant := a2 },
                st.trace ++ [Event.postAssistant body]⟩)
    else .error (Err.api "assistants.detachCodeFile")
  else .ok (a, st)

/-! ### Claim C7 -/

/-- C7: for every 2xx response whose body does not JSON-decode, the
request function returns normally with status 500 and the specific
synthetic status text; for a 2xx response whose body decodes, it returns
the parsed data with the original status. -/
theorem C7_json_parse_synthetic_failure {α : Type} (parse : String → Option α)
    (status : Nat) (statusText raw : String)
    (hok : responseOk status = true) :
    (parse raw = none →
      ClientCore.handle parse status statusText raw =
        ⟨none, 500, some "Fail on json encode even when 200", some raw⟩) ∧
    (∀ d, parse raw = some d →
      ClientCore.handle parse status statusText raw = ⟨some d, status, none, none⟩) := by
  constructor
  · intro h
    simp [ClientCore.handle, hok, h]
  · intro d h
    simp [ClientCore.handle, hok, h]

/-- Witness for C7 at a concrete 200 response whose body fails to
decode. -/
theorem C7_witness :
    responseOk 200 = true ∧
    ClientCore.handle (fun _ => (none : Option Nat)) 200 "OK" "not json" =
      ⟨none, 500, some "Fail on json encode even when 200", some "not json"⟩ :=
  ⟨by decide,
   (C7_json_parse_synthetic_failure (fun _ => (none : Option Nat)) 200 "OK" "not json"
      (by decide)).1 rfl⟩

/-! ### Claim C2 -/

/-- C2: an `updateAssistant` call leaves every remote field the caller
did not provide unchanged — in particular the code-interpreter file-id
list when only `vectorStoreId` is given, and conversely. -/
theorem C2_update_only_touches_given_fields (o : Oracle)
    (args : UpdateAssistantArgs) (st : St)
    (hok : o.updateAssistantOk = true) :
    ∃ a2 st2, AssistantClient.updateAssistant o args st = .ok (a2, st2) ∧
      st2.remote.assistant = a2 ∧
      (args.name = none → a2.name = st.remote.assistant.name) ∧
      (args.model = none → a2.model = st.remote.assistant.model) ∧
      (args.description = none → a2.description = st.remote.assistant.description) ∧
      (args.instructions = none → a2.instructions = st.remote.assistant.instructions) ∧
      (args.vectorStoreId = none →
        a2.vector_store_ids = st.remote.assistant.vector_store_ids) ∧
      (args.codeFileIds = none →
        a2.code_file_ids = st.remote.assistant.code_file_ids) ∧
      a2.hasFileSearchTool = st.remote.assistant.hasFileSearchTool := by
  refine ⟨applyUpdate st.remote.assistant (buildUpdateBody args),
    ⟨{ st.remote with assistant := applyUpdate st.remote.assistant (buildUpdateBody args) },
     st.trace ++ [Event.postAssistant (buildUpdateBody args)]⟩, ?_, rfl,
    ?_, ?_, ?_, ?_, ?_, ?_, ?_⟩
  · simp [AssistantClient.updateAssistant, hok]
  all_goals
    first
    | (intro h; simp [applyUpdate, buildUpdateBody, h, truthyStr])
    | simp [applyUpdate, buildUpdateBody]

/-- Witness for C2: updating only `vectorStoreId` on a concrete
assistant leaves name, model, description, instructions and the
code-interpreter file list untouched. -/
theorem C2_witness :
    (Oracle.mk (fun _ => true) (fun _ => true) (fun _ => true) (fun _ => true)
      (fun _ => true) (fun _ => true) true true).updateAssistantOk = true ∧
    (∃ a2 st2,
      AssistantClient.updateAssistant
        (Oracle.mk (fun _ => true) (fun _ => true) (fun _ => true) (fun _ => true)
          (fun _ => true) (fun _ => true) true true)
        { vectorStoreId := some "vs-9" }
        ⟨⟨[], [], ⟨"n", "m", "d", "i", true, [], some ["f1"]⟩, 0, 0⟩, []⟩ = .ok (a2, st2) ∧
      st2.remote.assistant = a2 ∧
      (({ vectorStoreId := some "vs-9" } : UpdateAssistantArgs).name = none →
        a2.name = "n") ∧
      (({ vectorStoreId := some "vs-9" } : UpdateAssistantArgs).model = none →
        a2.model = "m") ∧
      (({ vectorStoreId := some "vs-9" } : UpdateAssistantArgs).description = none →
        a2.description = "d") ∧
      (({ vectorStoreId := some "vs-9" } : UpdateAssistantArgs).instructions = none →
        a2.instructions = "i") ∧
      (({ vectorStoreId := some "vs-9" } : UpdateAssistantArgs).vectorStoreId = none →
        a2.vector_store_ids = []) ∧
      (({ vectorStoreId := some "vs-9" } : UpdateAssistantArgs).codeFileIds = none →
        a2.code_file_ids = some ["f1"]) ∧
      a2.hasFileSearchTool = true) :=
  ⟨rfl,
   C2_update_only_touches_given_fields
     (Oracle.mk (fun _ => true) (fun _ => true) (fun _ => true) (fun _ => true)
       (fun _ => true) (fun _ => true) true true)
     { vectorStoreId := some "vs-9" }
     ⟨⟨[], [], ⟨"n", "m", "d", "i", true, [], some ["f1"]⟩, 0, 0⟩, []⟩ rfl⟩

/-! ### Claim C5 -/

/-- C5: attaching an id already present in the code-interpreter list
returns the assistant unchanged without issuing any network mutation
and without error; detaching an absent id likewise. -/
theorem C5_attach_detach_idempotent (o : Oracle) (a : AssistantR)
    (fid : String) (st : St) :
    (fid ∈ a.code_file_ids.getD [] →
      AssistantClient.attachCodeFile o a fid st = (a, st, none)) ∧
    (fid ∉ a.code_file_ids.getD [] →
      AssistantClient.detachCodeFile o a fid st = .ok (a, st)) := by
  constructor
  · intro h
    simp [AssistantClient.attachCodeFile, h]
  · intro h
    simp [AssistantClient.detachCodeFile, h]

/-- Witness for C5: attaching an already-attached id and detaching an
absent one, on a concrete assistant, are both silent no-ops. -/
theorem C5_witness :
    "f1" ∈ (some ["f1"] : Option (List String)).getD [] ∧
    "f9" ∉ (some ["f1"] : Option (List String)).getD [] ∧
    AssistantClient.attachCodeFile
      (Oracle.mk (fun _ => true) (fun _ => true) (fun _ => true) (fun _ => true)
        (fun _ => true) (fun _ => true) true true)
      ⟨"n", "m", "d", "i", true, [], some ["f1"]⟩ "f1"
      ⟨⟨[], [], ⟨"n", "m", "d", "i", true, [], some ["f1"]⟩, 0, 0⟩, []⟩ =
      (⟨"n", "m", "d", "i", true, [], some ["f1"]⟩,
       ⟨⟨[], [], ⟨"n", "m", "d", "i", true, [], some ["f1"]⟩, 0, 0⟩, []⟩, none) ∧
    AssistantClient.detachCodeFile
      (Oracle.mk (fun _ => true) (fun _ => true) (fun _ => true) (fun _ => true)
        (fun _ => true) (fun _ => true) true true)
      ⟨"n", "m", "d", "i", true, [], some ["f1"]⟩ "f9"
      ⟨⟨[], [], ⟨"n", "m", "d", "i", true, [], some ["f1"]⟩, 0, 0⟩, []⟩ =
      .ok (⟨"n", "m", "d", "i", true, [], some ["f1"]⟩,
           ⟨⟨[], [], ⟨"n", "m", "d", "i", true, [], some ["f1"]⟩, 0, 0⟩, []⟩) :=
  ⟨by decide, by decide,
   (C5_attach_detach_idempotent
      (Oracle.mk (fun _ => true) (fun _ => true) (fun _ => true) (fun _ => true)
        (fun _ => true) (fun _ => true) true true)
      ⟨"n", "m", "d", "i", true, [], some ["f1"]⟩ "f1"
      ⟨⟨[], [], ⟨"n", "m", "d", "i", true, [], some ["f1"]⟩, 0, 0⟩, []⟩).1 (by decide),
   (C5_attach_detach_idempotent
      (Oracle.mk (fun _ => true) (fun _ => true) (fun _ => true) (fun _ => true)
        (fun _ => true) (fun _ => true) true true)
      ⟨"n", "m", "d", "i", true, [], some ["f1"]⟩ "f9"
      ⟨⟨[], [], ⟨"n", "m", "d", "i", true, [], some ["f1"]⟩, 0, 0⟩, []⟩).2 (by decide)⟩

/-! ### Cursor pagination (clients/file.ts, clients/vector_store.ts) -/

/-- Server-side cursor resolution: the items strictly after the first
item whose id equals the cursor. -/
def dropThroughId {α : Type} (idOf : α → String) (a : String) : List α → List α
| [] => []
| x :: xs => if idOf x = a then xs else dropThroughId idOf a xs

/-- The items remaining after an optional `after` cursor. -/
def resolveCursor {α : Type} (idOf : α → String) (items : List α) :
    Option String → List α
| none => items
| some a => dropThroughId idOf a items

/-- The pagination envelope of the remote list endpoints
(`PaginationBody` in clients/core.ts, restricted to the fields the
clients read). -/
structure SrvPage (α : Type) where
  data : List α
  has_more : Bool
  last_id : String

/-- Modelled from the spec: a list endpoint returns at most `limit`
items starting after the cursor, `has_more` is true exactly when items
remain beyond the page, and `last_id` is the id of the page's last
item. -/
def srvPage {α : Type} (idOf : α → String) (items : List α) (limit : Nat)
    (after : Option String) : SrvPage α :=
  let rem := resolveCursor idOf items after
  ⟨rem.take limit, decide (limit < rem.length), ((rem.take limit).map idOf).getLastD ""⟩

/-- The do-while pagination loop shared by `FileClient.list`,
`VectorStoreClient.listFiles` (and the other list methods): request a
page, append its data, continue with `after := last_id` while
`has_more`.  The fuel argument only bounds the recursion; the callers
pass one more than the item count, which `paginateGo_complete` shows is
never exhausted against the server model. -/
def paginateGo {α : Type} (idOf : α → String) (items : List α) (limit : Nat) :
    Nat → Option String → List α → List α
| 0, _, acc => acc
| Nat.succ fuel, after, acc =>
  let p := srvPage idOf items limit after
  let acc2 := acc ++ p.data
  if p.has_more then paginateGo idOf items limit fuel (some p.last_id) acc2 else acc2

/-- A full aggregate listing, starting with no cursor and an empty
accumulator. -/
def paginate {α : Type} (idOf : α → String) (items : List α) (limit : Nat) : List α :=
  paginateGo idOf items limit (items.length + 1) none []

/-- `FileClient.list` (clients/file.ts, lines 216-235): the aggregate
file listing, page size 100. -/
def FileClient.list (items : List RFile) : List RFile :=
  paginate RFile.id items 100

/-- `VectorStoreClient.listFiles` (clients/vector_store.ts, lines
142-160): the aggregate attachment listing of a store, page size 100. -/
def VectorStoreClient.listFiles (items : List VSFile) : List VSFile :=
  paginate VSFile.id items 100

/-- The loop of `FileClient.search` (clients/file.ts, lines 192-214):
page through the file listing, returning the first file of the current
page whose filename equals the query, else continue while `has_more`. -/
def FileClient.searchGo (items : List RFile) (fileName : String) :
    Nat → Option String → Option RFile
| 0, _ => none
| Nat.succ fuel, after =>
  let p := srvPage RFile.id items 100 after
  match p.data.find? (fun f => decide (f.filename = fileName)) with
  | some f => some f
  | none =>
    if p.has_more then FileClient.searchGo items fileName fuel (some p.last_id)
    else none

/-- `FileClient.search`: exact-filename lookup through the paginated
listing. -/
def FileClient.search (items : List RFile) (fileName : String) : Option RFile :=
  FileClient.searchGo items fileName (items.length + 1) none

lemma find?_append_some {α : Type} (p : α → Bool) (l₁ l₂ : List α) (x : α)
    (h : l₁.find? p = some x) : (l₁ ++ l₂).find? p = some x := by
  induction l₁ with
  | nil => simp at h
  | cons y ys ih =>
    by_cases hy : p y
    · rw [List.find?_cons_of_pos _ hy] at h
      simpa [List.find?_cons_of_pos _ hy] using h
    · rw [List.find?_cons_of_neg _ hy] at h
      simpa [List.find?_cons_of_neg _ hy] using ih h

lemma find?_append_none {α : Type} (p : α → Bool) (l₁ l₂ : List α)
    (h : l₁.find? p = none) : (l₁ ++ l₂).find? p = l₂.find? p := by
  induction l₁ with
  | nil => simp
  | cons y ys ih =>
    by_cases hy : p y
    · rw [List.find?_cons_of_pos _ hy] at h
      exact absurd h (by simp)
    · rw [List.find?_cons_of_neg _ hy] at h
      simpa [List.find?_cons_of_neg _ hy] using ih h

lemma dropThroughId_append {α : Type} (idOf : α → String) (e : α)
    (pre post : List α) (h : ∀ x ∈ pre, idOf x ≠ idOf e) :
    dropThroughId idOf (idOf e) (pre ++ e :: post) = post := by
  induction pre with
  | nil => simp [dropThroughId]
  | cons x xs ih =>
    have hx : idOf x ≠ idOf e := h x (List.mem_cons_self x xs)
    rw [List.cons_append, dropThroughId, if_neg hx]
    exact ih (fun y hy => h y (List.mem_cons_of_mem x hy))

lemma nodup_head_notmem {α : Type} (idOf : α → String) (front rest : List α)
    (e : α) (h : ((front ++ e :: rest).map idOf).Nodup) :
    ∀ x ∈ front, idOf x ≠ idOf e := by
  intro x hx hEq
  have h2 : (front.map idOf ++ idOf e :: rest.map idOf).Nodup := by
    simpa using h
  have hdisj := List.disjoint_of_nodup_append h2
  exact hdisj (List.mem_map_of_mem idOf hx)
    (by rw [hEq]; exact List.mem_cons_self _ _)

/-- One step of honest-server cursor bookkeeping: when a full page is
returned, following the `last_id` cursor lands exactly on the remaining
suffix. -/
lemma cursor_step {α : Type} (idOf : α → String) (items front pending : List α)
    (limit : Nat) (hlim : 0 < limit) (hnd : (items.map idOf).Nodup)
    (hitems : items = front ++ pending) (hmore : limit < pending.length) :
    resolveCursor idOf items
      (some (((pending.take limit).map idOf).getLastD "")) = pending.drop limit ∧
    items = (front ++ pending.take limit) ++ pending.drop limit := by
  have htd := List.take_append_drop limit pending
  have hlen : (pending.take limit).length = limit := by
    rw [List.length_take]
    omega
  rcases List.eq_nil_or_concat' (pending.take limit) with h0 | ⟨q, e, hqe⟩
  · rw [h0] at hlen
    simp at hlen
    omega
  have hlast : ((pending.take limit).map idOf).getLastD "" = idOf e := by
    rw [hqe, List.map_append]
    simp [List.getLastD_concat]
  have hpend : pending = q ++ e :: pending.drop limit := by
    conv_lhs => rw [← htd]
    rw [hqe, List.append_assoc, List.singleton_append]
  have hdecomp : items = (front ++ q) ++ e :: pending.drop limit := by
    rw [hitems, List.append_assoc, ← hpend]
  constructor
  · rw [hlast]
    show dropThroughId idOf (idOf e) items = pending.drop limit
    have hnd2 := hnd
    rw [hdecomp] at hnd2
    rw [hdecomp]
    exact dropThroughId_append idOf e _ _ (nodup_head_notmem idOf _ _ e hnd2)
  · rw [hitems, List.append_assoc, List.take_append_drop]

/-- Completeness of the pagination loop against the honest server: with
duplicate-free ids and enough fuel, the loop returns the accumulator
followed by the whole remaining suffix. -/
lemma paginateGo_complete {α : Type} (idOf : α → String) (items : List α)
    (limit : Nat) (hlim : 0 < limit) (hnd : (items.map idOf).Nodup) :
    ∀ fuel pending front after acc,
      items = front ++ pending →
      resolveCursor idOf items after = pending →
      pending.length < fuel →
      paginateGo idOf items limit fuel after acc = acc ++ pending := by
  intro fuel
  induction fuel with
  | zero =>
    intro pending front after acc _ _ hf
    exact absurd hf (Nat.not_lt_zero _)
  | succ fuel ih =>
    intro pending front after acc hitems hcur hf
    simp only [paginateGo, srvPage]
    rw [hcur]
    by_cases hmore : limit < pending.length
    · obtain ⟨hcur2, hitems2⟩ :=
        cursor_step idOf items front pending limit hlim hnd hitems hmore
      rw [if_pos (by simpa using hmore)]
      rw [ih (pending.drop limit) (front ++ pending.take limit) _ _ hitems2 hcur2
        (by rw [List.length_drop]; omega)]
      rw [List.append_assoc, List.take_append_drop]
    · rw [if_neg (by simpa using hmore)]
      rw [List.take_of_length_le (by omega)]

lemma paginate_complete {α : Type} (idOf : α → String) (items : List α)
    (limit : Nat) (hlim : 0 < limit) (hnd : (items.map idOf).Nodup) :
    paginate idOf items limit = items := by
  have h := paginateGo_complete idOf items limit hlim hnd (items.length + 1)
    items [] none [] (by simp) rfl (Nat.lt_succ_self _)
  simpa using h

/-- Completeness of the search loop: with duplicate-free ids and enough
fuel, the paginated search agrees with `find?` over the remaining
suffix. -/
lemma searchGo_spec (items : List RFile) (fileName : String)
    (hnd : (items.map RFile.id).Nodup) :
    ∀ fuel pending front after,
      items = front ++ pending →
      resolveCursor RFile.id items after = pending →
      pending.length < fuel →
      FileClient.searchGo items fileName fuel after =
        pending.find? (fun f => decide (f.filename = fileName)) := by
  intro fuel
  induction fuel with
  | zero =>
    intro pending front after _ _ hf
    exact absurd hf (Nat.not_lt_zero _)
  | succ fuel ih =>
    intro pending front after hitems hcur hf
    simp only [FileClient.searchGo, srvPage]
    rw [hcur]
    cases hfind : (pending.take 100).find? (fun f => decide (f.filename = fileName)) with
    | some f =>
      have hp : pending.find? (fun f => decide (f.filename = fileName)) = some f := by
        conv_lhs => rw [← List.take_append_drop 100 pending]
        exact find?_append_some _ _ _ _ hfind
      show some f = List.find? (fun f => decide (f.filename = fileName)) pending
      rw [hp]
    | none =>
      have hp : pending.find? (fun f => decide (f.filename = fileName)) =
          (pending.drop 100).find? (fun f => decide (f.filename = fileName)) := by
        conv_lhs => rw [← List.take_append_drop 100 pending]
        exact find?_append_none _ _ _ hfind
      show (if decide (100 < pending.length) = true then
          FileClient.searchGo items fileName fuel
            (some ((List.map RFile.id (List.take 100 pending)).getLastD ""))
        else none) = List.find? (fun f => decide (f.filename = fileName)) pending
      rw [hp]
      by_cases hmore : 100 < pending.length
      · obtain ⟨hcur2, hitems2⟩ :=
          cursor_step RFile.id items front pending 100 (by omega) hnd hitems hmore
        rw [if_pos (by simpa using hmore)]
        exact ih (pending.drop 100) (front ++ pending.take 100) _ hitems2 hcur2
          (by rw [List.length_drop]; omega)
      · rw [if_neg (by simpa using hmore)]
        rw [List.drop_eq_nil_of_le (by omega)]
        rfl

/-! ### Claim C6 -/

/-- C6: for every server-side collection with duplicate-free ids,
paginated with cursor pages of size at most 100 (cursor = last id of the
previous page, continuing exactly while has_more), the aggregate list
operations return exactly the collection in server order — no
duplicates, no omissions, for every collection size including zero. -/
theorem C6_pagination_exact (files : List RFile) (vsItems : List VSFile)
    (h1 : (files.map RFile.id).Nodup) (h2 : (vsItems.map VSFile.id).Nodup) :
    FileClient.list files = files ∧
    VectorStoreClient.listFiles vsItems = vsItems :=
  ⟨paginate_complete RFile.id files 100 (by omega) h1,
   paginate_complete VSFile.id vsItems 100 (by omega) h2⟩

/-- Witness for C6 on concrete collections (including reapplication to
the empty collection through the same theorem instance). -/
theorem C6_witness :
    (([⟨"f1", "a"⟩, ⟨"f2", "b"⟩, ⟨"f3", "a"⟩] : List RFile).map RFile.id).Nodup ∧
    (([] : List VSFile).map VSFile.id).Nodup ∧
    FileClient.list [⟨"f1", "a"⟩, ⟨"f2", "b"⟩, ⟨"f3", "a"⟩] =
      [⟨"f1", "a"⟩, ⟨"f2", "b"⟩, ⟨"f3", "a"⟩] ∧
    VectorStoreClient.listFiles [] = [] :=
  ⟨by decide, by decide,
   (C6_pagination_exact [⟨"f1", "a"⟩, ⟨"f2", "b"⟩, ⟨"f3", "a"⟩] []
      (by decide) (by decide)).1,
   (C6_pagination_exact [⟨"f1", "a"⟩, ⟨"f2", "b"⟩, ⟨"f3", "a"⟩] []
      (by decide) (by decide)).2⟩

/-! ### Claim C8 -/

/-- C8: `search` pages through the full file listing (page size 100,
cursor = last id of the previous page, continuing while has_more) and
returns the first file, in server order, whose filename exactly equals
the query — or none when no file matches. -/
theorem C8_search_first_exact_match (files : List RFile) (fileName : String)
    (hnd : (files.map RFile.id).Nodup) :
    FileClient.search files fileName =
      files.find? (fun f => decide (f.filename = fileName)) :=
  searchGo_spec files fileName hnd (files.length + 1) files [] none
    (by simp) rfl (Nat.lt_succ_self _)

/-- Witness for C8: on a concrete listing with two files named "a", the
search returns the first of them in server order. -/
theorem C8_witness :
    (([⟨"f1", "b"⟩, ⟨"f2", "a"⟩, ⟨"f3", "a"⟩] : List RFile).map RFile.id).Nodup ∧
    FileClient.search [⟨"f1", "b"⟩, ⟨"f2", "a"⟩, ⟨"f3", "a"⟩] "a" =
      ([⟨"f1", "b"⟩, ⟨"f2", "a"⟩, ⟨"f3", "a"⟩] : List RFile).find?
        (fun f => decide (f.filename = "a")) :=
  ⟨by decide,
   C8_search_first_exact_match [⟨"f1", "b"⟩, ⟨"f2", "a"⟩, ⟨"f3", "a"⟩] "a" (by decide)⟩

/-! ### File and vector-store client mutations -/

/-- `FileClient.upload` (clients/file.ts, lines 145-175): post the
multipart body; on success the server assigns a fresh file id to the
given name.  A failed call leaves the remote state untouched. -/
def FileClient.upload (o : Oracle) (fileName : String) (st : St) :
    Except Err (RFile × St) :=
  if o.uploadOk fileName then
    .ok (⟨freshFileId st.remote, fileName⟩,
      ⟨{ st.remote with
          files := st.remote.files ++ [⟨freshFileId st.remote, fileName⟩],
          nextId := st.remote.nextId + 1 },
       st.trace ++ [Event.uploadFile (freshFileId st.remote) fileName]⟩)
  else .error (Err.api "files.upload")

/-- `FileClient.delete` (clients/file.ts, lines 177-190): remove the
file's permanent record.  Attachment entries referencing the id are not
touched — deletion is independent of attachment state. -/
def FileClient.delete (o : Oracle) (fid : String) (st : St) : Except Err St :=
  if o.deleteOk fid then
    .ok ⟨{ st.remote with
            files := st.remote.files.filter (fun f => !(decide (f.id = fid))) },
         st.trace ++ [Event.deleteFile fid]⟩
  else .error (Err.api "files.delete")

/-- `FileClient.getFileName` (clients/file.ts, lines 109-118): the
target name is the override when truthy, else the last path segment;
an empty result raises. -/
def FileClient.getFileName (filePath : String) (newFileName : Option String) :
    Option String :=
  let original := (filePath.splitOn "/").getLastD ""
  let name := if truthyStr newFileName then newFileName.getD "" else original
  if name = "" then none else some name

/-- `VectorStoreClient.create`: create a store with a fresh id and no
attachments.  The `name` argument (the assistant's name at every call
site) only sets the store's display name, which the model does not
track. -/
def VectorStoreClient.create (o : Oracle) (name : String) (st : St) :
    Except Err (String × St) :=
  if o.createStoreOk then
    .ok ("vs-" ++ toString st.remote.nextStoreId,
      ⟨{ st.remote with
          stores := st.remote.stores ++ [("vs-" ++ toString st.remote.nextStoreId, [])],
          nextStoreId := st.remote.nextStoreId + 1 },
       st.trace ++ [Event.createStore ("vs-" ++ toString st.remote.nextStoreId)]⟩)
  else .error (Err.api "vector_stores.create")

/-- `VectorStoreClient.attachFile`: register a file against a store and
return the attachment record, whose id equals the file id. -/
def VectorStoreClient.attachFile (o : Oracle) (file : RFile) (vStoreId : String)
    (st : St) : Except Err (VSFile × St) :=
  if o.attachStoreOk file.id then
    .ok (⟨file.id, vStoreId⟩,
      ⟨storeAttach st.remote vStoreId file.id,
       st.trace ++ [Event.attachStore vStoreId file.id]⟩)
  else .error (Err.api "vector_stores.attachFile")

/-- `VectorStoreClient.detachFile`: remove the attachment record only;
the file record itself is untouched. -/
def VectorStoreClient.detachFile (o : Oracle) (fid vStoreId : String) (st : St) :
    Except Err St :=
  if o.detachStoreOk fid then
    .ok ⟨storeDetach st.remote vStoreId fid,
         st.trace ++ [Event.detachStore vStoreId fid]⟩
  else .error (Err.api "vector_stores.detachFile")

/-! ### Orchestrator (client.ts) -/

/-- `Client.createVectorStoreIfNotExists` (client.ts): return the
assistant's store id, or create a store named after the assistant and
link it into the assistant's tool_resources.  On a failed call the error
is paired with the state reached so far (the create may already have
happened when the link fails). -/
def Client.createVectorStoreIfNotExists (o : Oracle) (a : AssistantR) (st : St) :
    Except (Err × St) (String × St) :=
  match AssistantClient.tryGetVectorStoreId a with
  | some v => .ok (v, st)
  | none =>
    match VectorStoreClient.create o a.name st with
    | .error e => .error (e, st)
    | .ok (sid, st2) =>
      match AssistantClient.updateAssistant o { vectorStoreId := some sid } st2 with
      | .error e => .error (e, st2)
      | .ok (_, st3) => .ok (sid, st3)

/-- The upload-and-attach tail of `Client.uploadFile` (client.ts): upload
the bytes, then attach the new file either to the code-interpreter list
or to the (lazily created) vector store.  Returns the uploaded record,
the state reached, and the error raised if any. -/
def Client.uploadFileRest (o : Oracle) (a : AssistantR) (fileName : String)
    (dest : FileDestination) (st : St) : Option RFile × St × Option Err :=
  match FileClient.upload o fileName st with
  | .error e => (none, st, some e)
  | .ok (fileData, st2) =>
    match dest with
    | FileDestination.code =>
      match AssistantClient.attachCodeFile o a fileData.id st2 with
      | (_, st3, some e) => (none, st3, some e)
      | (_, st3, none) => (some fileData, st3, none)
    | FileDestination.file =>
      match Client.createVectorStoreIfNotExists o a st2 with
      | .error (e, st3) => (none, st3, some e)
      | .ok (vStoreId, st3) =>
        match VectorStoreClient.attachFile o fileData vStoreId st3 with
        | .error e => (none, st3, some e)
        | .ok (_, st4) => (some fileData, st4, none)

/-- `Client.uploadFile` (client.ts, lines 168-217): resolve the target
name, search the remote listing for a name collision; without overwrite
a collision raises before any mutation, with overwrite the stale file is
deleted first; then upload and attach. -/
def Client.uploadFile (o : Oracle) (filePath : String) (newFileName : Option String)
    (overwrite : Bool) (dest : FileDestination) (st : St) :
    Option RFile × St × Option Err :=
  let a := st.remote.assistant
  match FileClient.getFileName filePath newFileName with
  | none => (none, st, some (Err.api "getFileName"))
  | some fileName =>
    match FileClient.search st.remote.files fileName with
    | some existingFile =>
      if !overwrite then (none, st, some (Err.nameExists fileName))
      else
        match FileClient.delete o existingFile.id st with
        | .error e => (none, st, some e)
        | .ok st2 => Client.uploadFileRest o a fileName dest st2
    | none => Client.uploadFileRest o a fileName dest st

/-- `Client.tryGetFileDestination`: which destination(s) currently
reference the file id — the vector-store attachment listing first, then
the code-interpreter id list. -/
def Client.tryGetFileDestination (a : AssistantR) (files : List VSFile)
    (fid : String) : List FileDestination :=
  (if (files.find? (fun f => decide (f.id = fid))).isSome
   then [FileDestination.file] else []) ++
  (if fid ∈ a.code_file_ids.getD [] then [FileDestination.code] else [])

/-- `Client.detachFileCore` (client.ts in part_002, lines 354-400):
detach the file from each destination that references it; a failure on
one destination is caught and logged and does not block attempting the
other.  The returned assistant is the response of the last successful
code detach (`newAssistant`), the argument otherwise. -/
def Client.detachFileCore (o : Oracle) (fid : String) (a : AssistantR)
    (vsFiles : List VSFile) (st : St) : AssistantR × St :=
  (Client.tryGetFileDestination a vsFiles fid).foldl
    (fun (acc : AssistantR × St) d =>
      match d with
      | FileDestination.file =>
        match AssistantClient.tryGetVectorStoreId a with
        | some vStoreId =>
          match VectorStoreClient.detachFile o fid vStoreId acc.2 with
          | .ok st2 => (acc.1, st2)
          | .error _ => acc
        | none => acc
      | FileDestination.code =>
        match AssistantClient.detachCodeFile o a fid acc.2 with
        | .ok (a2, st2) => (a2, st2)
        | .error _ => acc)
    (a, st)

/-- `Client.listVectorStoreFiles`: the paginated attachment listing of
the assistant's store, or empty when no store is configured. -/
def Client.listVectorStoreFiles (st : St) : List VSFile :=
  match AssistantClient.tryGetVectorStoreId st.remote.assistant with
  | none => []
  | some v =>
    VectorStoreClient.listFiles
      ((storeFiles st.remote v).map (fun fid => ⟨fid, v⟩))

/-- `Client.detachFile` (client.ts, lines 219-258): fetch the assistant
and the store's attachment listing, then run the per-destination detach
loop. -/
def Client.detachFile (o : Oracle) (fid : String) (st : St) : AssistantR × St :=
  Client.detachFileCore o fid st.remote.assistant (Client.listVectorStoreFiles st) st

lemma mem_lookupStore_append_empty (xs : List (String × List String))
    (sid v x : String) :
    x ∈ lookupStore (xs ++ [(sid, [])]) v ↔ x ∈ lookupStore xs v := by
  unfold lookupStore
  cases hfind : xs.find? (fun p => decide (p.1 = v)) with
  | some pr => rw [find?_append_some _ _ _ _ hfind]
  | none =>
    rw [find?_append_none _ _ _ hfind]
    by_cases h : sid = v <;> simp [List.find?, h]

lemma storeKey_comp (v2 v fid : String) :
    ((fun (p : String × List String) => decide (p.1 = v)) ∘
      (fun (p : String × List String) => if p.1 = v2 then (p.1, p.2 ++ [fid]) else p)) =
      (fun (p : String × List String) => decide (p.1 = v)) := by
  funext p
  by_cases h : p.1 = v2 <;> simp [Function.comp, h]

lemma mem_lookupStore_attach (xs : List (String × List String))
    (v2 fid v x : String) (hx : x ≠ fid) :
    x ∈ lookupStore
        (xs.map (fun p => if p.1 = v2 then (p.1, p.2 ++ [fid]) else p)) v ↔
      x ∈ lookupStore xs v := by
  unfold lookupStore
  rw [List.find?_map, storeKey_comp]
  cases hfind : xs.find? (fun p => decide (p.1 = v)) with
  | none => simp
  | some pr =>
    by_cases h : pr.1 = v2 <;> simp [h, hx]

lemma mem_lookupStore_create_attach (xs : List (String × List String))
    (sid fid v x : String) (hx : x ≠ fid) :
    x ∈ lookupStore
        (xs.map (fun p => if p.1 = sid then (p.1, p.2 ++ [fid]) else p) ++
          [(sid, [fid])]) v ↔
      x ∈ lookupStore xs v := by
  unfold lookupStore
  cases hfind : xs.find? (fun p => decide (p.1 = v)) with
  | some pr =>
    have h2 : (xs.map (fun p => if p.1 = sid then (p.1, p.2 ++ [fid]) else p)).find?
        (fun p => decide (p.1 = v)) =
        some (if pr.1 = sid then (pr.1, pr.2 ++ [fid]) else pr) := by
      rw [List.find?_map, storeKey_comp, hfind]
      rfl
    rw [find?_append_some _ _ _ _ h2]
    by_cases h : pr.1 = sid <;> simp [h, hx]
  | none =>
    have h2 : (xs.map (fun p => if p.1 = sid then (p.1, p.2 ++ [fid]) else p)).find?
        (fun p => decide (p.1 = v)) = none := by
      rw [List.find?_map, storeKey_comp, hfind]
      rfl
    rw [find?_append_none _ _ _ h2]
    by_cases h : sid = v <;> simp [List.find?, h, hx]

/-- The upload-and-attach tail of a single-file upload: it only appends
to the trace, never issues a delete or a vector-store detach, and leaves
the membership of every id other than the freshly assigned one unchanged
in every store's attachment list and in the code-interpreter list. -/
lemma uploadFileRest_spec (o : Oracle) (a : AssistantR) (fileName : String)
    (dest : FileDestination) (st : St) (ha : a = st.remote.assistant) :
    ∃ extra,
      (Client.uploadFileRest o a fileName dest st).2.1.trace = st.trace ++ extra ∧
      (∀ fid, Event.deleteFile fid ∉ extra) ∧
      (∀ v fid, Event.detachStore v fid ∉ extra) ∧
      (∀ x, x ≠ freshFileId st.remote → ∀ v,
        (x ∈ storeFiles (Client.uploadFileRest o a fileName dest st).2.1.remote v ↔
          x ∈ storeFiles st.remote v)) ∧
      (∀ x, x ≠ freshFileId st.remote →
        (x ∈ (Client.uploadFileRest o a fileName dest st).2.1.remote.assistant.code_file_ids.getD [] ↔
          x ∈ st.remote.assistant.code_file_ids.getD [])) := by
  by_cases hu : o.uploadOk fileName = true
  case neg =>
    refine ⟨[], ?_, by simp, by simp, ?_, ?_⟩ <;>
      simp [Client.uploadFileRest, FileClient.upload, hu]
  case pos =>
    cases dest with
    | code =>
      by_cases hmem : freshFileId st.remote ∈ a.code_file_ids.getD []
      · refine ⟨[Event.uploadFile (freshFileId st.remote) fileName], ?_, by simp,
          by simp, ?_, ?_⟩ <;>
          simp [Client.uploadFileRest, FileClient.upload, hu,
            AssistantClient.attachCodeFile, hmem, storeFiles]
      · by_cases hac : o.attachCodeOk (freshFileId st.remote) = true
        · refine ⟨[Event.uploadFile (freshFileId st.remote) fileName,
            Event.postAssistant
              { tr_code := some (a.code_file_ids.getD [] ++ [freshFileId st.remote]) }],
            ?_, by simp, by simp, ?_, ?_⟩ <;>
            simp [Client.uploadFileRest, FileClient.upload, hu,
              AssistantClient.attachCodeFile, hmem, hac, storeFiles,
              applyUpdate]
          intro x hx
          rw [← ha]
          simp [hx]
        · refine ⟨[Event.uploadFile (freshFileId st.remote) fileName], ?_, by simp,
            by simp, ?_, ?_⟩ <;>
            simp [Client.uploadFileRest, FileClient.upload, hu,
              AssistantClient.attachCodeFile, hmem, hac, storeFiles]
    | file =>
      cases hv : AssistantClient.tryGetVectorStoreId a with
      | some v2 =>
        by_cases has : o.attachStoreOk (freshFileId st.remote) = true
        · refine ⟨[Event.uploadFile (freshFileId st.remote) fileName,
            Event.attachStore v2 (freshFileId st.remote)], ?_, by simp, by simp,
            ?_, ?_⟩ <;>
            simp [Client.uploadFileRest, FileClient.upload, hu,
              Client.createVectorStoreIfNotExists, hv,
              VectorStoreClient.attachFile, has, storeFiles, storeAttach]
          intro x hx v
          exact mem_lookupStore_attach _ _ _ _ _ hx
        · refine ⟨[Event.uploadFile (freshFileId st.remote) fileName], ?_, by simp,
            by simp, ?_, ?_⟩ <;>
            simp [Client.uploadFileRest, FileClient.upload, hu,
              Client.createVectorStoreIfNotExists, hv,
              VectorStoreClient.attachFile, has, storeFiles]
      | none =>
        by_cases hcs : o.createStoreOk = true
        · by_cases hup : o.updateAssistantOk = true
          · by_cases has : o.attachStoreOk (freshFileId st.remote) = true
            · refine ⟨[Event.uploadFile (freshFileId st.remote) fileName,
                Event.createStore ("vs-" ++ toString st.remote.nextStoreId),
                Event.postAssistant
                  (buildUpdateBody { vectorStoreId := some ("vs-" ++ toString st.remote.nextStoreId) }),
                Event.attachStore ("vs-" ++ toString st.remote.nextStoreId)
                  (freshFileId st.remote)], ?_, by simp, by simp, ?_, ?_⟩ <;>
                simp [Client.uploadFileRest, FileClient.upload, hu,
                  Client.createVectorStoreIfNotExists, hv, VectorStoreClient.create,
                  hcs, AssistantClient.updateAssistant, hup,
                  VectorStoreClient.attachFile, has, storeFiles, storeAttach,
                  applyUpdate, buildUpdateBody, truthyStr]
              intro x hx v
              exact mem_lookupStore_create_attach _ _ _ _ _ hx
            · refine ⟨[Event.uploadFile (freshFileId st.remote) fileName,
                Event.createStore ("vs-" ++ toString st.remote.nextStoreId),
                Event.postAssistant
                  (buildUpdateBody { vectorStoreId := some ("vs-" ++ toString st.remote.nextStoreId) })],
                ?_, by simp, by simp, ?_, ?_⟩ <;>
                simp [Client.uploadFileRest, FileClient.upload, hu,
                  Client.createVectorStoreIfNotExists, hv, VectorStoreClient.create,
                  hcs, AssistantClient.updateAssistant, hup,
                  VectorStoreClient.attachFile, has, storeFiles,
                  applyUpdate, buildUpdateBody, truthyStr]
              intro x hx v
              exact mem_lookupStore_append_empty _ _ _ _
          · refine ⟨[Event.uploadFile (freshFileId st.remote) fileName,
              Event.createStore ("vs-" ++ toString st.remote.nextStoreId)],
              ?_, by simp, by simp, ?_, ?_⟩ <;>
              simp [Client.uploadFileRest, FileClient.upload, hu,
                Client.createVectorStoreIfNotExists, hv, VectorStoreClient.create,
                hcs, AssistantClient.updateAssistant, hup, storeFiles]
            intro x hx v
            exact mem_lookupStore_append_empty _ _ _ _
        · refine ⟨[Event.uploadFile (freshFileId st.remote) fileName], ?_, by simp,
            by simp, ?_, ?_⟩ <;>
            simp [Client.uploadFileRest, FileClient.upload, hu,
              Client.createVectorStoreIfNotExists, hv, VectorStoreClient.create,
              hcs, storeFiles]

/-! ### Claim C3 -/

/-- C3: when the resolved target filename matches an existing remote
filename, `uploadFile` without overwrite raises the collision error
before any mutation (result state is exactly the input state); with
overwrite it deletes the stale file as its first mutation, before the
upload.  Without a collision, the operation never issues a file
delete. -/
theorem C3_name_collision_policy (o : Oracle) (filePath : String)
    (newFileName : Option String) (dest : FileDestination) (st : St)
    (fileName : String)
    (hname : FileClient.getFileName filePath newFileName = some fileName)
    (hnd : (st.remote.files.map RFile.id).Nodup) :
    (∀ ex, st.remote.files.find? (fun f => decide (f.filename = fileName)) = some ex →
      Client.uploadFile o filePath newFileName false dest st =
        (none, st, some (Err.nameExists fileName)) ∧
      (o.deleteOk ex.id = true →
        ∃ rest, (Client.uploadFile o filePath newFileName true dest st).2.1.trace =
          st.trace ++ Event.deleteFile ex.id :: rest)) ∧
    (st.remote.files.find? (fun f => decide (f.filename = fileName)) = none →
      ∀ overwrite, ∃ extra,
        (Client.uploadFile o filePath newFileName overwrite dest st).2.1.trace =
          st.trace ++ extra ∧
        ∀ fid, Event.deleteFile fid ∉ extra) := by
  have hsearch : FileClient.search st.remote.files fileName =
      st.remote.files.find? (fun f => decide (f.filename = fileName)) :=
    searchGo_spec st.remote.files fileName hnd (st.remote.files.length + 1)
      st.remote.files [] none (by simp) rfl (Nat.lt_succ_self _)
  constructor
  · intro ex hex
    constructor
    · simp [Client.uploadFile, hname, hsearch, hex]
    · intro hdel
      have hred : Client.uploadFile o filePath newFileName true dest st =
          Client.uploadFileRest o st.remote.assistant fileName dest
            ⟨{ st.remote with
                files := st.remote.files.filter (fun f => !(decide (f.id = ex.id))) },
             st.trace ++ [Event.deleteFile ex.id]⟩ := by
        simp [Client.uploadFile, hname, hsearch, hex, FileClient.delete, hdel]
      obtain ⟨extra, htr, -, -, -, -⟩ :=
        uploadFileRest_spec o st.remote.assistant fileName dest
          ⟨{ st.remote with
              files := st.remote.files.filter (fun f => !(decide (f.id = ex.id))) },
           st.trace ++ [Event.deleteFile ex.id]⟩ rfl
      refine ⟨extra, ?_⟩
      rw [hred, htr]
      simp
  · intro hnone overwrite
    have hred : Client.uploadFile o filePath newFileName overwrite dest st =
        Client.uploadFileRest o st.remote.assistant fileName dest st := by
      cases overwrite <;>
        simp [Client.uploadFile, hname, hsearch, hnone]
    obtain ⟨extra, htr, hdelE, -, -, -⟩ :=
      uploadFileRest_spec o st.remote.assistant fileName dest st rfl
    exact ⟨extra, by rw [hred, htr], hdelE⟩

/-- Witness for C3: on a concrete state holding a remote file named
"a.txt", uploading "docs/a.txt" without overwrite fails with the
collision error and leaves the state untouched. -/
theorem C3_witness :
    FileClient.getFileName "docs/a.bin" (some "a.txt") = some "a.txt" ∧
    (([⟨"f1", "a.txt"⟩] : List RFile).map RFile.id).Nodup ∧
    (([⟨"f1", "a.txt"⟩] : List RFile).find?
      (fun f => decide (f.filename = "a.txt")) = some ⟨"f1", "a.txt"⟩) ∧
    Client.uploadFile
      (Oracle.mk (fun _ => true) (fun _ => true) (fun _ => true) (fun _ => true)
        (fun _ => true) (fun _ => true) true true)
      "docs/a.bin" (some "a.txt") false FileDestination.file
      ⟨⟨[⟨"f1", "a.txt"⟩], [("vs-1", ["f1"])],
        ⟨"n", "m", "", "", true, ["vs-1"], some []⟩, 0, 0⟩, []⟩ =
      (none,
       ⟨⟨[⟨"f1", "a.txt"⟩], [("vs-1", ["f1"])],
         ⟨"n", "m", "", "", true, ["vs-1"], some []⟩, 0, 0⟩, []⟩,
       some (Err.nameExists "a.txt")) :=
  ⟨by decide, by decide, by decide,
   ((C3_name_collision_policy
      (Oracle.mk (fun _ => true) (fun _ => true) (fun _ => true) (fun _ => true)
        (fun _ => true) (fun _ => true) true true)
      "docs/a.bin" (some "a.txt") FileDestination.file
      ⟨⟨[⟨"f1", "a.txt"⟩], [("vs-1", ["f1"])],
        ⟨"n", "m", "", "", true, ["vs-1"], some []⟩, 0, 0⟩, []⟩
      "a.txt" (by decide) (by decide)).1 ⟨"f1", "a.txt"⟩ (by decide)).1⟩

/-! ### Claim C10 -/

/-- C10 (implicit): in a single-file overwrite upload, the stale
same-named remote file is removed through the file delete endpoint only:
no vector-store detach event is ever issued, and the stale id's
membership in every store's attachment list and in the code-interpreter
file-id list is exactly as before the operation. -/
theorem C10_overwrite_no_detach_for_stale (o : Oracle) (filePath : String)
    (newFileName : Option String) (dest : FileDestination) (st : St)
    (fileName : String) (ex : RFile)
    (hname : FileClient.getFileName filePath newFileName = some fileName)
    (hnd : (st.remote.files.map RFile.id).Nodup)
    (hex : st.remote.files.find? (fun f => decide (f.filename = fileName)) = some ex)
    (hdel : o.deleteOk ex.id = true)
    (hfresh : ex.id ≠ freshFileId st.remote) :
    ∃ extra,
      (Client.uploadFile o filePath newFileName true dest st).2.1.trace =
        st.trace ++ Event.deleteFile ex.id :: extra ∧
      (∀ v fid, Event.detachStore v fid ∉ extra) ∧
      (∀ v, ex.id ∈ storeFiles
            (Client.uploadFile o filePath newFileName true dest st).2.1.remote v ↔
        ex.id ∈ storeFiles st.remote v) ∧
      (ex.id ∈ (Client.uploadFile o filePath newFileName
            true dest st).2.1.remote.assistant.code_file_ids.getD [] ↔
        ex.id ∈ st.remote.assistant.code_file_ids.getD []) := by
  have hsearch : FileClient.search st.remote.files fileName =
      st.remote.files.find? (fun f => decide (f.filename = fileName)) :=
    searchGo_spec st.remote.files fileName hnd (st.remote.files.length + 1)
      st.remote.files [] none (by simp) rfl (Nat.lt_succ_self _)
  have hred : Client.uploadFile o filePath newFileName true dest st =
      Client.uploadFileRest o st.remote.assistant fileName dest
        ⟨{ st.remote with
            files := st.remote.files.filter (fun f => !(decide (f.id = ex.id))) },
         st.trace ++ [Event.deleteFile ex.id]⟩ := by
    simp [Client.uploadFile, hname, hsearch, hex, FileClient.delete, hdel]
  obtain ⟨extra, htr, -, hdet, hstores, hcode⟩ :=
    uploadFileRest_spec o st.remote.assistant fileName dest
      ⟨{ st.remote with
          files := st.remote.files.filter (fun f => !(decide (f.id = ex.id))) },
       st.trace ++ [Event.deleteFile ex.id]⟩ rfl
  refine ⟨extra, ?_, hdet, ?_, ?_⟩
  · rw [hred, htr]
    simp
  · intro v
    rw [hred]
    exact hstores ex.id hfresh v
  · rw [hred]
    exact hcode ex.id hfresh

/-- Witness for C10: on a concrete state where the stale file "f1" is
attached both to the store and to the code list, the overwrite upload
issues no detach and leaves both attachment entries referencing "f1". -/
theorem C10_witness :
    FileClient.getFileName "docs/a.bin" (some "a.txt") = some "a.txt" ∧
    ∃ extra,
      (Client.uploadFile
        (Oracle.mk (fun _ => true) (fun _ => true) (fun _ => true) (fun _ => true)
          (fun _ => true) (fun _ => true) true true)
        "docs/a.bin" (some "a.txt") true FileDestination.file
        ⟨⟨[⟨"f1", "a.txt"⟩], [("vs-1", ["f1"])],
          ⟨"n", "m", "", "", true, ["vs-1"], some ["f1"]⟩, 0, 0⟩, []⟩).2.1.trace =
        ([] : List Event) ++ Event.deleteFile "f1" :: extra ∧
      (∀ v fid, Event.detachStore v fid ∉ extra) ∧
      (∀ v, "f1" ∈ storeFiles (Client.uploadFile
            (Oracle.mk (fun _ => true) (fun _ => true) (fun _ => true) (fun _ => true)
              (fun _ => true) (fun _ => true) true true)
            "docs/a.bin" (some "a.txt") true FileDestination.file
            ⟨⟨[⟨"f1", "a.txt"⟩], [("vs-1", ["f1"])],
              ⟨"n", "m", "", "", true, ["vs-1"], some ["f1"]⟩, 0, 0⟩, []⟩).2.1.remote v ↔
        "f1" ∈ storeFiles
          (⟨[⟨"f1", "a.txt"⟩], [("vs-1", ["f1"])],
            ⟨"n", "m", "", "", true, ["vs-1"], some ["f1"]⟩, 0, 0⟩ : Remote) v) ∧
      ("f1" ∈ (Client.uploadFile
            (Oracle.mk (fun _ => true) (fun _ => true) (fun _ => true) (fun _ => true)
              (fun _ => true) (fun _ => true) true true)
            "docs/a.bin" (some "a.txt") true FileDestination.file
            ⟨⟨[⟨"f1", "a.txt"⟩], [("vs-1", ["f1"])],
              ⟨"n", "m", "", "", true, ["vs-1"],
                some ["f1"]⟩, 0, 0⟩, []⟩).2.1.remote.assistant.code_file_ids.getD [] ↔
        "f1" ∈ (some ["f1"] : Option (List String)).getD []) :=
  ⟨by decide,
   C10_overwrite_no_detach_for_stale
     (Oracle.mk (fun _ => true) (fun _ => true) (fun _ => true) (fun _ => true)
       (fun _ => true) (fun _ => true) true true)
     "docs/a.bin" (some "a.txt") FileDestination.file
     ⟨⟨[⟨"f1", "a.txt"⟩], [("vs-1", ["f1"])],
       ⟨"n", "m", "", "", true, ["vs-1"], some ["f1"]⟩, 0, 0⟩, []⟩
     "a.txt" ⟨"f1", "a.txt"⟩ (by decide) (by decide) (by decide) (by decide)
     (by decide)⟩

/-! ### Directory upload (part_002, Client.uploadDir) -/

/-- The per-file upload-and-attach loop of `Client.uploadDir` (part_002,
lines 287-303), threading the (alias-mutated) local assistant object and
accumulating the newly uploaded files and the attachment records; the
first failure stops the loop, handing the accumulators to the rollback. -/
def Client.uploadLoop (o : Oracle) (dest : FileDestination) (vStoreId : String) :
    List String → AssistantR → List RFile → List VSFile → St →
    AssistantR × List RFile × List VSFile × St × Option Err
| [], a, ups, atts, st => (a, ups, atts, st, none)
| f :: rest, a, ups, atts, st =>
  match FileClient.upload o f st with
  | .error e => (a, ups, atts, st, some e)
  | .ok (resp, st2) =>
    match dest with
    | FileDestination.code =>
      match AssistantClient.attachCodeFile o a resp.id st2 with
      | (a2, st3, some e) => (a2, ups ++ [resp], atts, st3, some e)
      | (a2, st3, none) =>
        Client.uploadLoop o dest vStoreId rest a2 (ups ++ [resp]) atts st3
    | FileDestination.file =>
      match VectorStoreClient.attachFile o resp vStoreId st2 with
      | .error e => (a, ups ++ [resp], atts, st2, some e)
      | .ok (vf, st3) =>
        Client.uploadLoop o dest vStoreId rest a (ups ++ [resp]) (atts ++ [vf]) st3

/-- The rollback of `Client.uploadDir` (part_002, lines 309-317): for
each file uploaded in this run, in upload order, delete its permanent
record and then, if it was attached, detach it from the vector store.
A failing cleanup call aborts the loop — the catch block has no handler
of its own — and its error replaces the original one. -/
def Client.rollbackLoop (o : Oracle) (vStoreId : String) (atts : List VSFile) :
    List RFile → St → St × Option Err
| [], st => (st, none)
| f :: rest, st =>
  match FileClient.delete o f.id st with
  | .error e => (st, some e)
  | .ok st2 =>
    match atts.find? (fun vf => decide (vf.id = f.id)) with
    | some vf =>
      match VectorStoreClient.detachFile o vf.id vStoreId st2 with
      | .error e => (st2, some e)
      | .ok st3 => Client.rollbackLoop o vStoreId atts rest st3
    | none => Client.rollbackLoop o vStoreId atts rest st2

/-- The overwrite second pass of `Client.uploadDir` (part_002, lines
325-343): delete each previously existing file sharing a name with a
local file and detach it via the shared detach logic, threading the
assistant returned by each detach. -/
def Client.overwriteLoop (o : Oracle) (vsFiles : List VSFile)
    (prev : List RFile) : List String → AssistantR → St → St × Option Err
| [], _, st => (st, none)
| f :: rest, a, st =>
  match prev.find? (fun p => decide (p.filename = f)) with
  | some existingFile =>
    match FileClient.delete o existingFile.id st with
    | .error e => (st, some e)
    | .ok st2 =>
      match Client.detachFileCore o existingFile.id a vsFiles st2 with
      | (a2, st3) => Client.overwriteLoop o vsFiles prev rest a2 st3
  | none => Client.overwriteLoop o vsFiles prev rest a st

/-- `Client.uploadDir` (part_002, lines 238-344).  `localFiles` is the
directory listing (regular, non-dotfile entries); the filesystem
existence check of step 1 lies outside the remote model.  The rollback's
restoring update sends `a2.code_file_ids` — the loop-threaded local
assistant's list — because the source captures `originalCodeFiles` as a
reference to the very array `attachCodeFile` mutates in place. -/
def Client.uploadDir (o : Oracle) (localFiles : List String) (overwrite : Bool)
    (dest : FileDestination) (st : St) : St × Option Err :=
  let previouslyUploadedFiles := FileClient.list st.remote.files
  let collision :=
    if overwrite then none
    else localFiles.find?
      (fun f => previouslyUploadedFiles.any (fun p => decide (p.filename = f)))
  match collision with
  | some f => (st, some (Err.nameExists f))
  | none =>
    let a := st.remote.assistant
    match Client.createVectorStoreIfNotExists o a st with
    | .error (e, st2) => (st2, some e)
    | .ok (vStoreId, st2) =>
      match Client.uploadLoop o dest vStoreId localFiles a [] [] st2 with
      | (a2, ups, atts, st3, some e) =>
        match Client.rollbackLoop o vStoreId atts ups st3 with
        | (st4, some e2) => (st4, some e2)
        | (st4, none) =>
          match AssistantClient.updateAssistant o
              { codeFileIds := a2.code_file_ids } st4 with
          | .error e3 => (st4, some e3)
          | .ok (_, st5) => (st5, some e)
      | (a2, ups, atts, st3, none) =>
        if overwrite then
          Client.overwriteLoop o (Client.listVectorStoreFiles st3)
            previouslyUploadedFiles localFiles a2 st3
        else (st3, none)

/-! ### Claim C1 -/

/-- C1 (evaluation at the failing input): directory upload of
["a", "b"] to the code interpreter, pre-operation code list `[]`, with
the upload of "b" failing and every cleanup call succeeding.  The
rollback deletes the uploaded file ("file-0") and re-raises the original
error, but the assistant's code-interpreter list ends as ["file-0"] —
the id of the rolled-back upload — instead of the pre-operation `[]`:
`attachCodeFile` pushes onto the very array that `uploadDir` captured as
`originalCodeFiles`, so the restoring update re-sends the mutated
list. -/
theorem C1_rollback_reposts_mutated_code_list :
    (Client.uploadDir
      (Oracle.mk (fun s => decide (s = "a")) (fun _ => true) (fun _ => true)
        (fun _ => true) (fun _ => true) (fun _ => true) true true)
      ["a", "b"] false FileDestination.code
      ⟨⟨[], [("vs-1", [])], ⟨"n", "m", "", "", true, ["vs-1"], some []⟩, 0, 0⟩,
       []⟩).2 = some (Err.api "files.upload") ∧
    (Client.uploadDir
      (Oracle.mk (fun s => decide (s = "a")) (fun _ => true) (fun _ => true)
        (fun _ => true) (fun _ => true) (fun _ => true) true true)
      ["a", "b"] false FileDestination.code
      ⟨⟨[], [("vs-1", [])], ⟨"n", "m", "", "", true, ["vs-1"], some []⟩, 0, 0⟩,
       []⟩).1.remote.files = [] ∧
    (Client.uploadDir
      (Oracle.mk (fun s => decide (s = "a")) (fun _ => true) (fun _ => true)
        (fun _ => true) (fun _ => true) (fun _ => true) true true)
      ["a", "b"] false FileDestination.code
      ⟨⟨[], [("vs-1", [])], ⟨"n", "m", "", "", true, ["vs-1"], some []⟩, 0, 0⟩,
       []⟩).1.remote.assistant.code_file_ids = some ["file-0"] := by
  refine ⟨?_, ?_, ?_⟩ <;> decide

/-! ### Claim C9 -/

/-- C9 counterexample: a concrete directory upload to the vector store
in which the attach of the second file fails.  The rollback's trace for
the uploaded file has its permanent delete strictly before its
vector-store detach — not detach before delete as the claim states.
Moreover, when a cleanup delete fails, the remaining files' cleanup is
skipped: with deletes failing, both uploaded files survive and the
cleanup error replaces the original one. -/
theorem C9_counterexample :
    (Client.uploadDir
      (Oracle.mk (fun s => decide (s = "a")) (fun _ => true) (fun _ => true)
        (fun _ => true) (fun _ => true) (fun _ => true) true true)
      ["a", "b"] false FileDestination.file
      ⟨⟨[], [("vs-1", [])], ⟨"n", "m", "", "", true, ["vs-1"], some []⟩, 0, 0⟩,
       []⟩).1.trace =
      [Event.uploadFile "file-0" "a", Event.attachStore "vs-1" "file-0",
       Event.deleteFile "file-0", Event.detachStore "vs-1" "file-0",
       Event.postAssistant { tr_code := some [] }] ∧
    ¬ ((Client.uploadDir
        (Oracle.mk (fun s => decide (s = "a")) (fun _ => true) (fun _ => true)
          (fun _ => true) (fun _ => true) (fun _ => true) true true)
        ["a", "b"] false FileDestination.file
        ⟨⟨[], [("vs-1", [])], ⟨"n", "m", "", "", true, ["vs-1"], some []⟩, 0, 0⟩,
         []⟩).1.trace.findIdx
          (fun e => decide (e = Event.detachStore "vs-1" "file-0")) <
       (Client.uploadDir
        (Oracle.mk (fun s => decide (s = "a")) (fun _ => true) (fun _ => true)
          (fun _ => true) (fun _ => true) (fun _ => true) true true)
        ["a", "b"] false FileDestination.file
        ⟨⟨[], [("vs-1", [])], ⟨"n", "m", "", "", true, ["vs-1"], some []⟩, 0, 0⟩,
         []⟩).1.trace.findIdx
          (fun e => decide (e = Event.deleteFile "file-0"))) ∧
    (Client.uploadDir
      (Oracle.mk (fun s => !(decide (s = "c"))) (fun _ => false) (fun _ => true)
        (fun _ => true) (fun _ => true) (fun _ => true) true true)
      ["a", "b", "c"] false FileDestination.file
      ⟨⟨[], [("vs-1", [])], ⟨"n", "m", "", "", true, ["vs-1"], some []⟩, 0, 0⟩,
       []⟩).1.remote.files = [⟨"file-0", "a"⟩, ⟨"file-1", "b"⟩] ∧
    (Client.uploadDir
      (Oracle.mk (fun s => !(decide (s = "c"))) (fun _ => false) (fun _ => true)
        (fun _ => true) (fun _ => true) (fun _ => true) true true)
      ["a", "b", "c"] false FileDestination.file
      ⟨⟨[], [("vs-1", [])], ⟨"n", "m", "", "", true, ["vs-1"], some []⟩, 0, 0⟩,
       []⟩).2 = some (Err.api "files.delete") := by
  refine ⟨?_, ?_, ?_, ?_⟩ <;> decide

/-- The cleanup events the rollback issues for the given uploaded files,
in upload order: each file's permanent delete followed, when the file
was attached in this run, by its vector-store detach. -/
def rollbackEvents (vStoreId : String) (atts : List VSFile) :
    List RFile → List Event
| [] => []
| f :: rest =>
  Event.deleteFile f.id ::
    ((match atts.find? (fun vf => decide (vf.id = f.id)) with
      | some vf => [Event.detachStore vStoreId vf.id]
      | none => []) ++ rollbackEvents vStoreId atts rest)

/-- C9 amended: the rollback proceeds file-by-file in upload order, and
for each file issues the permanent delete first and then (when the file
was attached in this run) the vector-store detach; when every cleanup
call succeeds the loop raises nothing, and when a file's cleanup delete
fails the rollback stops there — the remaining files' cleanup is skipped
and the cleanup error (not the original) is what propagates. -/
theorem C9_rollback_order_amended (o : Oracle) (vStoreId : String)
    (atts : List VSFile) :
    ∀ ups st,
      ((∀ f ∈ ups, o.deleteOk f.id = true ∧ o.detachStoreOk f.id = true) →
        (Client.rollbackLoop o vStoreId atts ups st).1.trace =
          st.trace ++ rollbackEvents vStoreId atts ups ∧
        (Client.rollbackLoop o vStoreId atts ups st).2 = none) ∧
      (∀ xs f ys, ups = xs ++ f :: ys →
        (∀ g ∈ xs, o.deleteOk g.id = true ∧ o.detachStoreOk g.id = true) →
        o.deleteOk f.id = false →
        (Client.rollbackLoop o vStoreId atts ups st).1.trace =
          st.trace ++ rollbackEvents vStoreId atts xs ∧
        (Client.rollbackLoop o vStoreId atts ups st).2 =
          some (Err.api "files.delete")) := by
  intro ups
  induction ups with
  | nil =>
    intro st
    refine ⟨fun _ => ⟨by simp [Client.rollbackLoop, rollbackEvents], rfl⟩, ?_⟩
    intro xs f ys hups
    exact absurd hups (by simp)
  | cons g rest ih =>
    intro st
    constructor
    · intro hok
      have hg := hok g (List.mem_cons_self g rest)
      have hrest : ∀ f ∈ rest, o.deleteOk f.id = true ∧ o.detachStoreOk f.id = true :=
        fun f hf => hok f (List.mem_cons_of_mem g hf)
      cases hfind : atts.find? (fun vf => decide (vf.id = g.id)) with
      | some vf =>
        have hvf : vf.id = g.id := by simpa using List.find?_some hfind
        have hdet : o.detachStoreOk vf.id = true := by rw [hvf]; exact hg.2
        have hred : Client.rollbackLoop o vStoreId atts (g :: rest) st =
            Client.rollbackLoop o vStoreId atts rest
              ⟨storeDetach
                { st.remote with
                  files := st.remote.files.filter (fun f2 => !(decide (f2.id = g.id))) }
                vStoreId vf.id,
               (st.trace ++ [Event.deleteFile g.id]) ++
                 [Event.detachStore vStoreId vf.id]⟩ := by
          simp [Client.rollbackLoop, FileClient.delete, hg.1, hfind,
            VectorStoreClient.detachFile, hdet]
        rw [hred]
        obtain ⟨h1, h2⟩ := (ih _).1 hrest
        refine ⟨?_, h2⟩
        rw [h1]
        simp [rollbackEvents, hfind, hvf]
      | none =>
        have hred : Client.rollbackLoop o vStoreId atts (g :: rest) st =
            Client.rollbackLoop o vStoreId atts rest
              ⟨{ st.remote with
                  files := st.remote.files.filter (fun f2 => !(decide (f2.id = g.id))) },
               st.trace ++ [Event.deleteFile g.id]⟩ := by
          simp [Client.rollbackLoop, FileClient.delete, hg.1, hfind]
        rw [hred]
        obtain ⟨h1, h2⟩ := (ih _).1 hrest
        refine ⟨?_, h2⟩
        rw [h1]
        simp [rollbackEvents, hfind]
    · intro xs f ys hups hxs hf
      cases xs with
      | nil =>
        simp only [List.nil_append, List.cons.injEq] at hups
        obtain ⟨hgf, hry⟩ := hups
        rw [← hgf] at hf
        refine ⟨?_, ?_⟩ <;>
          simp [Client.rollbackLoop, FileClient.delete, hf, rollbackEvents]
      | cons x xs2 =>
        simp only [List.cons_append, List.cons.injEq] at hups
        obtain ⟨hgx, hrest2⟩ := hups
        have hg : o.deleteOk g.id = true ∧ o.detachStoreOk g.id = true := by
          rw [hgx]
          exact hxs x (List.mem_cons_self x xs2)
        have hxs2 : ∀ g2 ∈ xs2, o.deleteOk g2.id = true ∧ o.detachStoreOk g2.id = true :=
          fun g2 h => hxs g2 (List.mem_cons_of_mem x h)
        cases hfind : atts.find? (fun vf => decide (vf.id = g.id)) with
        | some vf =>
          have hvf : vf.id = g.id := by simpa using List.find?_some hfind
          have hdet : o.detachStoreOk vf.id = true := by rw [hvf]; exact hg.2
          have hred : Client.rollbackLoop o vStoreId atts (g :: rest) st =
              Client.rollbackLoop o vStoreId atts rest
                ⟨storeDetach
                  { st.remote with
                    files := st.remote.files.filter (fun f2 => !(decide (f2.id = g.id))) }
                  vStoreId vf.id,
                 (st.trace ++ [Event.deleteFile g.id]) ++
                   [Event.detachStore vStoreId vf.id]⟩ := by
            simp [Client.rollbackLoop, FileClient.delete, hg.1, hfind,
              VectorStoreClient.detachFile, hdet]
          rw [hred]
          obtain ⟨h1, h2⟩ := (ih _).2 xs2 f ys hrest2 hxs2 hf
          refine ⟨?_, h2⟩
          rw [h1]
          simp [rollbackEvents, ← hgx, hfind, hvf]
        | none =>
          have hred : Client.rollbackLoop o vStoreId atts (g :: rest) st =
              Client.rollbackLoop o vStoreId atts rest
                ⟨{ st.remote with
                    files := st.remote.files.filter (fun f2 => !(decide (f2.id = g.id))) },
                 st.trace ++ [Event.deleteFile g.id]⟩ := by
            simp [Client.rollbackLoop, FileClient.delete, hg.1, hfind]
          rw [hred]
          obtain ⟨h1, h2⟩ := (ih _).2 xs2 f ys hrest2 hxs2 hf
          refine ⟨?_, h2⟩
          rw [h1]
          simp [rollbackEvents, ← hgx, hfind]

/-- Witness for the amended C9 on a concrete rollback of one uploaded,
attached file with all cleanup calls succeeding. -/
theorem C9_witness :
    (∀ f ∈ ([⟨"f1", "a"⟩] : List RFile),
      (Oracle.mk (fun _ => true) (fun _ => true) (fun _ => true) (fun _ => true)
        (fun _ => true) (fun _ => true) true true).deleteOk f.id = true ∧
      (Oracle.mk (fun _ => true) (fun _ => true) (fun _ => true) (fun _ => true)
        (fun _ => true) (fun _ => true) true true).detachStoreOk f.id = true) ∧
    ((Client.rollbackLoop
        (Oracle.mk (fun _ => true) (fun _ => true) (fun _ => true) (fun _ => true)
          (fun _ => true) (fun _ => true) true true)
        "vs-1" [⟨"f1", "vs-1"⟩] [⟨"f1", "a"⟩]
        ⟨⟨[⟨"f1", "a"⟩], [("vs-1", ["f1"])],
          ⟨"n", "m", "", "", true, ["vs-1"], some []⟩, 1, 1⟩, []⟩).1.trace =
      [] ++ rollbackEvents "vs-1" [⟨"f1", "vs-1"⟩] [⟨"f1", "a"⟩] ∧
     (Client.rollbackLoop
        (Oracle.mk (fun _ => true) (fun _ => true) (fun _ => true) (fun _ => true)
          (fun _ => true) (fun _ => true) true true)
        "vs-1" [⟨"f1", "vs-1"⟩] [⟨"f1", "a"⟩]
        ⟨⟨[⟨"f1", "a"⟩], [("vs-1", ["f1"])],
          ⟨"n", "m", "", "", true, ["vs-1"], some []⟩, 1, 1⟩, []⟩).2 = none) :=
  ⟨by decide,
   ((C9_rollback_order_amended
      (Oracle.mk (fun _ => true) (fun _ => true) (fun _ => true) (fun _ => true)
        (fun _ => true) (fun _ => true) true true)
      "vs-1" [⟨"f1", "vs-1"⟩]) [⟨"f1", "a"⟩]
      ⟨⟨[⟨"f1", "a"⟩], [("vs-1", ["f1"])],
        ⟨"n", "m", "", "", true, ["vs-1"], some []⟩, 1, 1⟩, []⟩).1 (by decide)⟩

/-! ### Claim C4 -/

/-- C4 counterexample: a file attached both to the vector store and to
the code-interpreter list, whose vector-store detach call fails while
the code detach succeeds.  The operation completes (the failure is
caught), the code list ends empty, but the vector store still references
the file — the claim's "zero references in both locations even if one of
the two detach calls fails" is false at this input. -/
theorem C4_counterexample :
    "f1" ∈ storeFiles
      (Client.detachFile
        (Oracle.mk (fun _ => true) (fun _ => true) (fun _ => true) (fun _ => false)
          (fun _ => true) (fun _ => true) true true)
        "f1"
        ⟨⟨[], [("vs-1", ["f1"])], ⟨"n", "m", "", "", true, ["vs-1"], some ["f1"]⟩,
          0, 0⟩, []⟩).2.remote "vs-1" ∧
    (Client.detachFile
      (Oracle.mk (fun _ => true) (fun _ => true) (fun _ => true) (fun _ => false)
        (fun _ => true) (fun _ => true) true true)
      "f1"
      ⟨⟨[], [("vs-1", ["f1"])], ⟨"n", "m", "", "", true, ["vs-1"], some ["f1"]⟩,
        0, 0⟩, []⟩).2.remote.assistant.code_file_ids = some [] ∧
    (Client.detachFile
      (Oracle.mk (fun _ => true) (fun _ => true) (fun _ => true) (fun _ => false)
        (fun _ => true) (fun _ => true) true true)
      "f1"
      ⟨⟨[], [("vs-1", ["f1"])], ⟨"n", "m", "", "", true, ["vs-1"], some ["f1"]⟩,
        0, 0⟩, []⟩).2.remote.stores = [("vs-1", ["f1"])] := by
  refine ⟨?_, ?_, ?_⟩ <;> decide

lemma storeKeyD_comp (v2 v fid : String) :
    ((fun (p : String × List String) => decide (p.1 = v)) ∘
      (fun (p : String × List String) =>
        if p.1 = v2 then (p.1, p.2.filter (fun x => !(decide (x = fid)))) else p)) =
      (fun (p : String × List String) => decide (p.1 = v)) := by
  funext p
  by_cases h : p.1 = v2 <;> simp [Function.comp, h]

lemma not_mem_lookupStore_detach (xs : List (String × List String))
    (v fid : String) :
    fid ∉ lookupStore
      (xs.map (fun p =>
        if p.1 = v then (p.1, p.2.filter (fun x => !(decide (x = fid)))) else p)) v := by
  unfold lookupStore
  rw [List.find?_map, storeKeyD_comp]
  cases hfind : xs.find? (fun p => decide (p.1 = v)) with
  | none => simp
  | some pr =>
    have hpr : pr.1 = v := by simpa using List.find?_some hfind
    simp [hpr]

/-- C4 amended: for a file attached to both destinations, each of the
two detach calls is attempted independently — a failure of one is caught
and does not block the other — so each destination whose detach call
succeeds ends with zero references to the file; the destination whose
call fails keeps its reference.  The operation itself never raises. -/
theorem C4_detach_both_best_effort (o : Oracle) (fid v : String) (st : St)
    (hv : AssistantClient.tryGetVectorStoreId st.remote.assistant = some v)
    (hnd : (storeFiles st.remote v).Nodup)
    (hstore : fid ∈ storeFiles st.remote v)
    (hcode : fid ∈ st.remote.assistant.code_file_ids.getD []) :
    (o.detachStoreOk fid = true →
      fid ∉ storeFiles (Client.detachFile o fid st).2.remote v) ∧
    (o.detachCodeOk fid = true →
      fid ∉ (Client.detachFile o fid st).2.remote.assistant.code_file_ids.getD []) := by
  have hlist : Client.listVectorStoreFiles st =
      (storeFiles st.remote v).map (fun x => (⟨x, v⟩ : VSFile)) := by
    unfold Client.listVectorStoreFiles
    rw [hv]
    exact paginate_complete VSFile.id _ 100 (by omega)
      (by simpa [List.map_map, Function.comp_def] using hnd)
  have hfound : (((storeFiles st.remote v).map (fun x => (⟨x, v⟩ : VSFile))).find?
      (fun f => decide (f.id = fid))).isSome = true := by
    simp only [List.find?_isSome]
    exact ⟨⟨fid, v⟩, List.mem_map_of_mem _ hstore, by simp⟩
  have hdests : Client.tryGetFileDestination st.remote.assistant
      (Client.listVectorStoreFiles st) fid =
      [FileDestination.file, FileDestination.code] := by
    unfold Client.tryGetFileDestination
    rw [hlist, if_pos hfound, if_pos hcode]
    rfl
  constructor
  · intro hds
    by_cases hdc : o.detachCodeOk fid = true
    · simp only [Client.detachFile, Client.detachFileCore, hdests, List.foldl_cons,
        List.foldl_nil, hv, VectorStoreClient.detachFile, hds, if_true,
        AssistantClient.detachCodeFile, hcode, if_pos, hdc,
        AssistantClient.updateAssistant]
      simp [storeFiles, storeDetach, applyUpdate, not_mem_lookupStore_detach]
    · simp only [Client.detachFile, Client.detachFileCore, hdests, List.foldl_cons,
        List.foldl_nil, hv, VectorStoreClient.detachFile, hds, if_true,
        AssistantClient.detachCodeFile, hcode, if_pos, hdc]
      simp [storeFiles, storeDetach, not_mem_lookupStore_detach]
  · intro hdc
    by_cases hds : o.detachStoreOk fid = true
    · simp only [Client.detachFile, Client.detachFileCore, hdests, List.foldl_cons,
        List.foldl_nil, hv, VectorStoreClient.detachFile, hds, if_true,
        AssistantClient.detachCodeFile, hcode, if_pos, hdc,
        AssistantClient.updateAssistant]
      simp [applyUpdate, List.mem_filter]
    · simp only [Client.detachFile, Client.detachFileCore, hdests, List.foldl_cons,
        List.foldl_nil, hv, VectorStoreClient.detachFile, hds,
        AssistantClient.detachCodeFile, hcode, if_pos, hdc,
        AssistantClient.updateAssistant]
      simp [applyUpdate, List.mem_filter]

/-- Witness for the amended C4 on a concrete state with the file in both
destinations and both detach calls succeeding. -/
theorem C4_witness :
    AssistantClient.tryGetVectorStoreId
      (⟨"n", "m", "", "", true, ["vs-1"], some ["f1"]⟩ : AssistantR) = some "vs-1" ∧
    ((Oracle.mk (fun _ => true) (fun _ => true) (fun _ => true) (fun _ => true)
        (fun _ => true) (fun _ => true) true true).detachStoreOk "f1" = true →
      "f1" ∉ storeFiles
        (Client.detachFile
          (Oracle.mk (fun _ => true) (fun _ => true) (fun _ => true) (fun _ => true)
            (fun _ => true) (fun _ => true) true true)
          "f1"
          ⟨⟨[], [("vs-1", ["f1"])],
            ⟨"n", "m", "", "", true, ["vs-1"], some ["f1"]⟩, 0, 0⟩, []⟩).2.remote
        "vs-1") ∧
    ((Oracle.mk (fun _ => true) (fun _ => true) (fun _ => true) (fun _ => true)
        (fun _ => true) (fun _ => true) true true).detachCodeOk "f1" = true →
      "f1" ∉ (Client.detachFile
          (Oracle.mk (fun _ => true) (fun _ => true) (fun _ => true) (fun _ => true)
            (fun _ => true) (fun _ => true) true true)
          "f1"
          ⟨⟨[], [("vs-1", ["f1"])],
            ⟨"n", "m", "", "", true, ["vs-1"], some ["f1"]⟩, 0,
            0⟩, []⟩).2.remote.assistant.code_file_ids.getD []) :=
  ⟨by decide,
   (C4_detach_both_best_effort
      (Oracle.mk (fun _ => true) (fun _ => true) (fun _ => true) (fun _ => true)
        (fun _ => true) (fun _ => true) true true)
      "f1" "vs-1"
      ⟨⟨[], [("vs-1", ["f1"])],
        ⟨"n", "m", "", "", true, ["vs-1"], some ["f1"]⟩, 0, 0⟩, []⟩
      (by decide) (by decide) (by decide) (by decide)).1,
   (C4_detach_both_best_effort
      (Oracle.mk (fun _ => true) (fun _ => true) (fun _ => true) (fun _ => true)
        (fun _ => true) (fun _ => true) true true)
      "f1" "vs-1"
      ⟨⟨[], [("vs-1", ["f1"])],
        ⟨"n", "m", "", "", true, ["vs-1"], some ["f1"]⟩, 0, 0⟩, []⟩
      (by decide) (by decide) (by decide) (by decide)).2⟩

end GptFiles
